import Mathlib

/-!
Verification development for the `mt5-server` desktop installer/orchestrator
(`src/electron/src/installer.js` and `src/electron/src/main.js`).

The JavaScript is shallowly embedded: each method of `SilentInstaller` and each
container-lifecycle function of `main.js` becomes a pure Lean function.  Side
effects (external command invocations via `runCommand`/`exec`/`spawn`, state-file
writes via `fs.writeFileSync`, progress callbacks via `onProgress`, and error
dialogs) are recorded in an explicit trace list, and the outcome of every
external probe (command success/stdout, `fs.existsSync`, the exit code of the
`tar` child process) is supplied by an environment record, so that every theorem
quantifies over all possible behaviours of the outside world.
-/

/-- The three `process.platform` values the installer distinguishes
(`darwin`, `linux`, `win32`).  Any other value behaves like `linux` in every
branch the claims touch, so the model restricts to these three. -/
inductive Platform where
  | darwin
  | linux
  | win32
deriving Repr, DecidableEq, BEq

/-- String form of `process.platform`, used to name the bundled podman archive
`podman-${this.platform}.tar.gz`. -/
def Platform.str : Platform → String
  | .darwin => "darwin"
  | .linux => "linux"
  | .win32 => "win32"

/-- The persisted installation record (`install-state.json`).  Every field is
optional because the JSON object may omit any of them; `none` models an absent
key.  `installed`/`imageLoaded` are the two flags `isInstalled` checks with
`=== true`. -/
structure StateRecord where
  installed : Option Bool := none
  imageLoaded : Option Bool := none
  podmanSource : Option String := none
  podmanPath : Option String := none
  installedAt : Option String := none
  updatedAt : Option String := none
deriving Repr, DecidableEq

/-- Possible contents of the state file as seen by
`JSON.parse(fs.readFileSync(this.stateFile, 'utf8'))`: the file may be missing
(`readFileSync` throws `ENOENT`), unreadable (`readFileSync` throws another
error), syntactically invalid JSON (`JSON.parse` throws), or a parsed record. -/
inductive FileContent where
  | missing
  | unreadable
  | invalid (raw : String)
  | valid (record : StateRecord)
deriving Repr, DecidableEq

/-- Outcome of `JSON.parse(fs.readFileSync(...))`: `some` record exactly when
both the read and the parse succeed, `none` when either throws. -/
def parseState : FileContent → Option StateRecord
  | .valid r => some r
  | _ => none

/-- Model of `SilentInstaller.getState` (installer.js lines 90-96): return the parsed
record, or `{}` when reading or parsing throws. -/
def getState (f : FileContent) : StateRecord :=
  (parseState f).getD {}

/-- Model of `SilentInstaller.isInstalled` (installer.js lines 73-81): parse the state
file and test `state.installed === true && state.imageLoaded === true`;
any exception yields `false`. -/
def isInstalled (f : FileContent) : Bool :=
  match parseState f with
  | some st =>
    match st.installed, st.imageLoaded with
    | some true, some true => true
    | _, _ => false
  | none => false

/-- Semantics of one field under the JS object spread `{...current, ...partial}`:
a key present in `partial` overrides, an absent key keeps the current value. -/
def jsField {α : Type} (p c : Option α) : Option α :=
  match p with
  | some v => some v
  | none => c

/-- The merged record built by `SilentInstaller.saveState` (installer.js line
86): `{ ...currentState, ...state, updatedAt: new Date().toISOString() }`. -/
def mergeState (c p : StateRecord) (now : String) : StateRecord :=
  { installed := jsField p.installed c.installed
    imageLoaded := jsField p.imageLoaded c.imageLoaded
    podmanSource := jsField p.podmanSource c.podmanSource
    podmanPath := jsField p.podmanPath c.podmanPath
    installedAt := jsField p.installedAt c.installedAt
    updatedAt := some now }

/-- Model of `SilentInstaller.saveState` (installer.js lines 84-88): read the current
record, merge the partial update over it, stamp `updatedAt`, and overwrite the
file.  Returns the record written together with the new file content. -/
def saveState (f : FileContent) (p : StateRecord) (now : String) :
    StateRecord × FileContent :=
  let n := mergeState (getState f) p now
  (n, FileContent.valid n)

/-- C3: `isInstalled()` returns true iff the state file parses to a record with
`installed === true` and `imageLoaded === true`; in particular it is false for
`{installed: true, imageLoaded: false}` and false when the file is missing. -/
theorem isInstalled_iff_both_flags :
    (∀ f : FileContent, isInstalled f = true ↔
      ∃ r : StateRecord, f = FileContent.valid r ∧
        r.installed = some true ∧ r.imageLoaded = some true) ∧
    isInstalled (FileContent.valid
      { installed := some true, imageLoaded := some false }) = false ∧
    isInstalled FileContent.missing = false := by
  refine ⟨fun f => ?_, rfl, rfl⟩
  cases f with
  | missing => simp [isInstalled, parseState]
  | unreadable => simp [isInstalled, parseState]
  | invalid raw => simp [isInstalled, parseState]
  | valid r =>
    simp only [isInstalled, parseState]
    constructor
    · intro h
      refine ⟨r, rfl, ?_⟩
      cases hi : r.installed with
      | none => rw [hi] at h; cases hl : r.imageLoaded <;> simp [hl] at h
      | some b =>
        cases b with
        | false => rw [hi] at h; cases hl : r.imageLoaded <;> simp [hl] at h
        | true =>
          rw [hi] at h
          cases hl : r.imageLoaded with
          | none => rw [hl] at h; simp at h
          | some c =>
            cases c with
            | false => rw [hl] at h; simp at h
            | true => exact ⟨rfl, rfl⟩
    · rintro ⟨r', hr', h1, h2⟩
      cases hr'
      rw [h1, h2]

/-- C2: `saveState` performs a non-destructive merge: the record written over a
prior record `R` with partial `P` is exactly `mergeState R P now`; its
`updatedAt` is the fresh timestamp; every field absent from `P` keeps its value
from `R`; and in particular writing `{podmanSource: "system"}` after a prior
write of `{installed: true}` leaves `installed === true` intact. -/
theorem saveState_nondestructive_merge (R P : StateRecord) (now : String) :
    (saveState (FileContent.valid R) P now).1 = mergeState R P now ∧
    (mergeState R P now).updatedAt = some now ∧
    (P.installed = none → (mergeState R P now).installed = R.installed) ∧
    (P.imageLoaded = none → (mergeState R P now).imageLoaded = R.imageLoaded) ∧
    (P.podmanSource = none → (mergeState R P now).podmanSource = R.podmanSource) ∧
    (P.podmanPath = none → (mergeState R P now).podmanPath = R.podmanPath) ∧
    (P.installedAt = none → (mergeState R P now).installedAt = R.installedAt) ∧
    (saveState
      (saveState FileContent.missing { installed := some true } "t1").2
      { podmanSource := some "system" } "t2").1.installed = some true := by
  refine ⟨rfl, rfl, ?_, ?_, ?_, ?_, ?_, rfl⟩ <;>
    (intro h; simp [mergeState, jsField, h])

/-- Witness for `saveState_nondestructive_merge`: a concrete prior record and a
concrete partial update with every field absent, checked by evaluation. -/
theorem saveState_nondestructive_merge_witness :
    (({ installed := some true, podmanPath := some "/usr/bin/podman" }
        : StateRecord).imageLoaded = none) ∧
    (mergeState { installed := some true, podmanPath := some "/usr/bin/podman" }
      { imageLoaded := none } "t3").installed = some true := by
  have h := saveState_nondestructive_merge
    { installed := some true, podmanPath := some "/usr/bin/podman" }
    { imageLoaded := none } "t3"
  exact ⟨rfl, by rw [(h.2.2.1 rfl : _ = (some true : Option Bool))]⟩

/-- C10: state reads are total at the public interface: for every file content
that fails to parse (missing, unreadable, or invalid JSON), `getState()`
returns the empty record and `isInstalled()` returns false; both are total
functions of the file content, so neither throws. -/
theorem getState_total_on_bad_file (f : FileContent)
    (h : parseState f = none) :
    getState f = {} ∧ isInstalled f = false := by
  constructor
  · simp [getState, h]
  · simp [isInstalled, h]

/-- Witness for `getState_total_on_bad_file` at a syntactically-invalid state
file. -/
theorem getState_total_on_bad_file_witness :
    parseState (FileContent.invalid "not json at all") = none ∧
    getState (FileContent.invalid "not json at all") = {} ∧
    isInstalled (FileContent.invalid "not json at all") = false := by
  refine ⟨rfl, ?_⟩
  exact getState_total_on_bad_file (FileContent.invalid "not json at all") rfl

/-!
## Trace model for the installer's side effects
-/

/-- A single progress event delivered through `this.onProgress({step, message,
progress})`. -/
structure ProgressEvent where
  step : String
  message : String
  progress : Nat
deriving Repr, DecidableEq

/-- One observable side effect of the installer: a progress event, an external
command run through `runCommand` (recorded with its timeout in milliseconds,
default 60000), the `tar -xzf <archive> -C <dir>` child process spawned by
`extractBundledPodman`, or a state-file write (recorded as the full merged
record passed to `fs.writeFileSync`). -/
inductive Item where
  | ev (e : ProgressEvent)
  | cmd (command : String) (timeoutMs : Nat)
  | spawnTar (archive : String) (dir : String)
  | write (record : StateRecord)
deriving Repr, DecidableEq

/-- The progress events of a trace, in order. -/
def eventsOf (t : List Item) : List ProgressEvent :=
  t.filterMap fun i =>
    match i with
    | .ev e => some e
    | _ => none

/-- The state-file writes of a trace, in order. -/
def writesOf (t : List Item) : List StateRecord :=
  t.filterMap fun i =>
    match i with
    | .write r => some r
    | _ => none

/-- The external command invocations of a trace (both `runCommand` calls and
spawned processes), in order. -/
def commandsOf (t : List Item) : List Item :=
  t.filter fun i =>
    match i with
    | .cmd _ _ => true
    | .spawnTar _ _ => true
    | _ => false

/-- Whether a trace item is the `tar` extraction spawn. -/
def isSpawnTar : Item → Bool
  | .spawnTar _ _ => true
  | _ => false

/-- Environment supplying the outcome of every interaction with the outside
world during an installer run: the platform, the result of `runCommand` for
each command string (`.ok stdout` or `.error message`, the message being
`stderr || error.message`), the answer of `fs.existsSync` for each path, the
exit code of the `tar` child process, `process.env.LOCALAPPDATA`, and the
timestamp returned by `new Date().toISOString()`. -/
structure Env where
  platform : Platform
  run : String → Except String String
  fsExists : String → Bool
  tarExit : Nat
  localAppData : String
  now : String

/-- The filesystem paths computed by `SilentInstaller.init` that the claims
depend on: the bundled-resources directory, the extraction directory for the
bundled podman, and the bundled image tar
(`path.join(this.bundledPath, 'mt5-server.tar')`). -/
structure Paths where
  bundledPath : String
  localPodmanPath : String
  imageTarPath : String

/-- The target image reference `this.imageName`. -/
def imageName : String := "localhost/avyaktha-mt5:eightcap-arm64"

/-- Whether the second character list occurs at the head of the first. -/
def leadsWith : List Char → List Char → Bool
  | _, [] => true
  | [], _ :: _ => false
  | a :: as, b :: bs => a == b && leadsWith as bs

/-- Whether `sub` occurs as a contiguous sublist of `l`. -/
def hasSub : List Char → List Char → Bool
  | [], sub => leadsWith [] sub
  | a :: as, sub => leadsWith (a :: as) sub || hasSub as sub

/-- JavaScript `String.prototype.includes`: whether `sub` occurs as a substring
of `s`. -/
def jsIncludes (s sub : String) : Bool :=
  hasSub s.data sub.data

/-- Whether an `Except` result is a success (`runCommand` resolved). -/
def exceptOk {α β : Type} : Except α β → Bool
  | .ok _ => true
  | .error _ => false

/-- The ordered candidate list probed by `checkSystemPodman` (installer.js
lines 159-169): well-known absolute paths first, the bare command name last. -/
def podmanCandidates (platform : Platform) (localAppData : String) : List String :=
  match platform with
  | .win32 =>
    ["C:\\Program Files\\RedHat\\Podman\\podman.exe",
     localAppData ++ "\\Programs\\Podman\\podman.exe",
     "podman"]
  | _ =>
    ["/opt/homebrew/bin/podman",
     "/usr/local/bin/podman",
     "/opt/podman/bin/podman",
     "/usr/bin/podman",
     "podman"]

/-- The probe loop of `checkSystemPodman` (installer.js lines 171-179): try
`<candidate> --version` for each candidate in order; the first success wins. -/
def checkSystemPodmanGo (e : Env) : List String → List Item × Option String
  | [] => ([], none)
  | p :: rest =>
    match e.run (p ++ " --version") with
    | .ok _ => ([Item.cmd (p ++ " --version") 60000], some p)
    | .error _ =>
      let r := checkSystemPodmanGo e rest
      (Item.cmd (p ++ " --version") 60000 :: r.1, r.2)

/-- Model of `SilentInstaller.checkSystemPodman` (installer.js lines 156-181): probe the
fixed candidate list, returning the trace of probes and the first responding
path (`this.systemPodmanPath`), if any. -/
def checkSystemPodman (e : Env) : List Item × Option String :=
  checkSystemPodmanGo e (podmanCandidates e.platform e.localAppData)

/-- The platform-specific remediation message thrown by
`extractBundledPodman` when no bundled archive exists (installer.js lines
187-213). -/
def missingPodmanMsg : Platform → String
  | .win32 =>
    "Podman is required but not installed.\n\n" ++
    "Please install Podman Desktop from:\n" ++
    "https://podman-desktop.io/downloads\n\n" ++
    "After installation, restart this app."
  | .darwin =>
    "Podman is required but not installed.\n\n" ++
    "Please install Podman using Homebrew:\n" ++
    "brew install podman\n\n" ++
    "Or install Podman Desktop from:\n" ++
    "https://podman-desktop.io/downloads\n\n" ++
    "After installation, restart this app."
  | .linux =>
    "Podman is required but not installed.\n\n" ++
    "Please install Podman:\n" ++
    "sudo apt install podman\n\n" ++
    "After installation, restart this app."

/-- Model of `SilentInstaller.extractBundledPodman` (installer.js lines 184-233): throw
the remediation message if `podman-${platform}.tar.gz` is absent; otherwise
spawn `tar -xzf <archive> -C <localPodmanPath>` and fail when its exit code is
nonzero.  (`mkdirSync` and `chmodSync` are local filesystem bookkeeping, not
external commands or state-file writes, and are not recorded.) -/
def extractBundledPodman (e : Env) (ps : Paths) : List Item × Except String Unit :=
  let archive := ps.bundledPath ++ "/podman-" ++ e.platform.str ++ ".tar.gz"
  if !(e.fsExists archive) then
    ([], .error (missingPodmanMsg e.platform))
  else if e.tarExit = 0 then
    ([Item.spawnTar archive ps.localPodmanPath], .ok ())
  else
    ([Item.spawnTar archive ps.localPodmanPath],
     .error ("Failed to extract Podman: exit code " ++ toString e.tarExit))

/-- Result of one installer step: the side-effect trace, the state-file content
after the step, the current `this.podmanBin`, and the step's outcome. -/
structure StepResult (α : Type) where
  trace : List Item
  file : FileContent
  bin : String
  val : Except String α

/-- Model of `SilentInstaller.setupPodman` (installer.js lines 136-154): adopt a system
podman if the probe finds one (persisting `{podmanSource: 'system', podmanPath}`
and switching `this.podmanBin`); otherwise reuse an already-extracted bundled
podman; otherwise extract the bundle; both bundled cases persist
`{podmanSource: 'bundled'}`. -/
def setupPodman (e : Env) (ps : Paths) (f : FileContent) (bin : String) :
    StepResult Unit :=
  let c := checkSystemPodman e
  match c.2 with
  | some p =>
    let w := saveState f { podmanSource := some "system", podmanPath := some p } e.now
    ⟨c.1 ++ [Item.write w.1], w.2, p, .ok ()⟩
  | none =>
    if e.fsExists bin then
      let w := saveState f { podmanSource := some "bundled" } e.now
      ⟨c.1 ++ [Item.write w.1], w.2, bin, .ok ()⟩
    else
      let x := extractBundledPodman e ps
      match x.2 with
      | .ok _ =>
        let w := saveState f { podmanSource := some "bundled" } e.now
        ⟨c.1 ++ x.1 ++ [Item.write w.1], w.2, bin, .ok ()⟩
      | .error m => ⟨c.1 ++ x.1, f, bin, .error m⟩

/-- The `podman images --format "{{.Repository}}:{{.Tag}}"` command string
(braces written with escapes). -/
def imagesCmd (bin : String) : String :=
  bin ++ " images --format \"\x7b\x7b.Repository\x7d\x7d:\x7b\x7b.Tag\x7d\x7d\""

/-- Model of `SilentInstaller.initPodmanMachine` (installer.js lines 236-258): check for
an existing machine by name (a failing list command counts as "absent");
initialize one with fixed defaults under a 5-minute timeout if absent; then
check whether it is running and start it under a 2-minute timeout if not. -/
def initPodmanMachine (e : Env) (bin : String) : List Item × Except String Unit :=
  let listName := bin ++ " machine list --format \"\x7b\x7b.Name\x7d\x7d\""
  let machineExists :=
    match e.run listName with
    | .ok out => jsIncludes out "podman-machine-default"
    | .error _ => false
  let t1 := [Item.cmd listName 60000]
  let initCmd := bin ++ " machine init --cpus 2 --memory 4096 --disk-size 20"
  let s2 : List Item × Except String Unit :=
    if machineExists then ([], .ok ())
    else ([Item.cmd initCmd 300000], (e.run initCmd).map fun _ => ())
  match s2.2 with
  | .error m => (t1 ++ s2.1, .error m)
  | .ok _ =>
    let listRunning := bin ++ " machine list --format \"\x7b\x7b.Running\x7d\x7d\""
    let machineRunning :=
      match e.run listRunning with
      | .ok out => jsIncludes out "true"
      | .error _ => false
    let t3 := t1 ++ s2.1 ++ [Item.cmd listRunning 60000]
    if machineRunning then (t3, .ok ())
    else
      let startCmd := bin ++ " machine start"
      (t3 ++ [Item.cmd startCmd 120000], (e.run startCmd).map fun _ => ())

/-- Whether the target image is already listed: the `.then(output =>
output.includes(this.imageName)).catch(() => false)` test of installer.js
lines 263-265. -/
def imageListed (e : Env) (bin : String) : Bool :=
  match e.run (imagesCmd bin) with
  | .ok out => jsIncludes out imageName
  | .error _ => false

/-- Model of `SilentInstaller.loadContainerImage` (installer.js lines 261-279): query
installed images; return immediately if the target reference is listed;
otherwise require the bundled tar to exist (failing with the
"download the full installer" message) and load it under a 10-minute timeout,
emitting a 60% progress event first. -/
def loadContainerImage (e : Env) (ps : Paths) (bin : String) :
    List Item × Except String Unit :=
  let t1 := [Item.cmd (imagesCmd bin) 60000]
  if imageListed e bin then (t1, .ok ())
  else if !(e.fsExists ps.imageTarPath) then
    (t1, .error "Bundled container image not found. Please download the full installer.")
  else
    let loadCmd := bin ++ " load -i \"" ++ ps.imageTarPath ++ "\""
    (t1 ++
      [Item.ev ⟨"image", "Loading container image (this may take a few minutes)...", 60⟩,
       Item.cmd loadCmd 600000],
     (e.run loadCmd).map fun _ => ())

/-- Model of `SilentInstaller.verifyInstallation` (installer.js lines 335-344): run the
version command, re-query images (both failures propagate), and require the
fragment `avyaktha-mt5` to be listed. -/
def verifyInstallation (e : Env) (bin : String) : List Item × Except String Unit :=
  let vc := bin ++ " --version"
  match e.run vc with
  | .error m => ([Item.cmd vc 60000], .error m)
  | .ok _ =>
    let t := [Item.cmd vc 60000, Item.cmd (imagesCmd bin) 60000]
    match e.run (imagesCmd bin) with
    | .error m => (t, .error m)
    | .ok images =>
      if jsIncludes images "avyaktha-mt5" then (t, .ok ())
      else (t, .error "Container image not found after loading")

/-- The terminal progress event emitted by the `catch` block of `install`
(installer.js line 131). -/
def errorEvent (m : String) : Item :=
  Item.ev ⟨"error", "Installation failed: " ++ m, 0⟩

/-- Model of `SilentInstaller.install` (installer.js lines 99-134): short-circuit when
already installed; otherwise run podman setup, machine initialization (macOS
and Windows only), image load, and verification in order, each preceded by its
progress event; persist `{installed, imageLoaded, installedAt}` and emit the
100% event on success; on any failure emit the error event and rethrow. -/
def install (e : Env) (ps : Paths) (f : FileContent) (bin : String) :
    List Item × FileContent × Except String Bool :=
  if isInstalled f then
    ([Item.ev ⟨"complete", "Already installed", 100⟩], f, .ok true)
  else
    let t0 := [Item.ev ⟨"podman", "Setting up container runtime...", 10⟩]
    let s1 := setupPodman e ps f bin
    match s1.val with
    | .error m => (t0 ++ s1.trace ++ [errorEvent m], s1.file, .error m)
    | .ok _ =>
      let s2 : List Item × Except String Unit :=
        if e.platform == Platform.darwin || e.platform == Platform.win32 then
          let r := initPodmanMachine e s1.bin
          (Item.ev ⟨"machine", "Initializing Podman machine...", 30⟩ :: r.1, r.2)
        else ([], .ok ())
      match s2.2 with
      | .error m => (t0 ++ s1.trace ++ s2.1 ++ [errorEvent m], s1.file, .error m)
      | .ok _ =>
        let r3 := loadContainerImage e ps s1.bin
        let t3 := Item.ev ⟨"image", "Loading MT5 container image...", 50⟩ :: r3.1
        match r3.2 with
        | .error m =>
          (t0 ++ s1.trace ++ s2.1 ++ t3 ++ [errorEvent m], s1.file, .error m)
        | .ok _ =>
          let r4 := verifyInstallation e s1.bin
          let t4 := Item.ev ⟨"verify", "Verifying installation...", 90⟩ :: r4.1
          match r4.2 with
          | .error m =>
            (t0 ++ s1.trace ++ s2.1 ++ t3 ++ t4 ++ [errorEvent m], s1.file, .error m)
          | .ok _ =>
            let w := saveState s1.file
              { installed := some true, imageLoaded := some true,
                installedAt := some e.now } e.now
            (t0 ++ s1.trace ++ s2.1 ++ t3 ++ t4 ++
              [Item.write w.1, Item.ev ⟨"complete", "Installation complete!", 100⟩],
             w.2, .ok true)

/-!
## Trace bookkeeping lemmas
-/

theorem eventsOf_append (a b : List Item) :
    eventsOf (a ++ b) = eventsOf a ++ eventsOf b := by
  simp [eventsOf, List.filterMap_append]

theorem writesOf_append (a b : List Item) :
    writesOf (a ++ b) = writesOf a ++ writesOf b := by
  simp [writesOf, List.filterMap_append]

/-- Every item the probe loop records is a `runCommand` invocation. -/
theorem checkSystemPodmanGo_cmds (e : Env) (l : List String) :
    ∀ i ∈ (checkSystemPodmanGo e l).1, ∃ c n, i = Item.cmd c n := by
  induction l with
  | nil => intro i hi; simp [checkSystemPodmanGo] at hi
  | cons p rest ih =>
    intro i hi
    simp only [checkSystemPodmanGo] at hi
    cases hr : e.run (p ++ " --version") with
    | ok out =>
      rw [hr] at hi
      simp at hi
      exact ⟨_, _, hi⟩
    | error m =>
      rw [hr] at hi
      simp at hi
      rcases hi with h | h
      · exact ⟨_, _, h⟩
      · exact ih i h

theorem eventsOf_of_cmds {t : List Item}
    (h : ∀ i ∈ t, ∃ c n, i = Item.cmd c n) : eventsOf t = [] := by
  induction t with
  | nil => rfl
  | cons i rest ih =>
    obtain ⟨c, n, hi⟩ := h i (List.mem_cons_self i rest)
    subst hi
    simp only [eventsOf, List.filterMap_cons]
    exact ih fun j hj => h j (List.mem_cons_of_mem _ hj)

theorem writesOf_of_cmds {t : List Item}
    (h : ∀ i ∈ t, ∃ c n, i = Item.cmd c n) : writesOf t = [] := by
  induction t with
  | nil => rfl
  | cons i rest ih =>
    obtain ⟨c, n, hi⟩ := h i (List.mem_cons_self i rest)
    subst hi
    simp only [writesOf, List.filterMap_cons]
    exact ih fun j hj => h j (List.mem_cons_of_mem _ hj)

theorem noSpawnTar_of_cmds {t : List Item}
    (h : ∀ i ∈ t, ∃ c n, i = Item.cmd c n) :
    t.all (fun i => !isSpawnTar i) = true := by
  rw [List.all_eq_true]
  intro i hi
  obtain ⟨c, n, hic⟩ := h i hi
  subst hic
  rfl

/-- The probe loop returns exactly the first candidate whose version command
succeeds. -/
theorem checkSystemPodmanGo_find (e : Env) (l : List String) :
    (checkSystemPodmanGo e l).2 =
      l.find? fun q => exceptOk (e.run (q ++ " --version")) := by
  induction l with
  | nil => rfl
  | cons p rest ih =>
    simp only [checkSystemPodmanGo, List.find?]
    cases hr : e.run (p ++ " --version") with
    | ok out => simp [exceptOk, hr]
    | error m => simp [exceptOk, hr, ih]

/-!
## C1: top-level idempotence of install()
-/

/-- C1: whenever `isInstalled()` is true, `install()` short-circuits: it
invokes zero external commands, performs no state-file write, emits exactly one
progress event `{step: 'complete', progress: 100, message: 'Already
installed'}`, leaves the state file untouched, and returns true. -/
theorem install_short_circuits_when_installed (e : Env) (ps : Paths)
    (f : FileContent) (bin : String) (h : isInstalled f = true) :
    install e ps f bin =
      ([Item.ev ⟨"complete", "Already installed", 100⟩], f, Except.ok true) ∧
    commandsOf (install e ps f bin).1 = [] ∧
    writesOf (install e ps f bin).1 = [] ∧
    eventsOf (install e ps f bin).1 =
      [⟨"complete", "Already installed", 100⟩] := by
  have hi : install e ps f bin =
      ([Item.ev ⟨"complete", "Already installed", 100⟩], f, Except.ok true) := by
    simp [install, h]
  refine ⟨hi, ?_, ?_, ?_⟩ <;> (rw [hi]; rfl)

/-- Witness for `install_short_circuits_when_installed` at a concrete installed
state file and a concrete environment. -/
theorem install_short_circuits_when_installed_witness :
    isInstalled (FileContent.valid
      { installed := some true, imageLoaded := some true }) = true ∧
    install
      { platform := .linux, run := fun _ => .error "offline",
        fsExists := fun _ => false, tarExit := 1, localAppData := "", now := "t0" }
      { bundledPath := "/res/bundled", localPodmanPath := "/ud/podman",
        imageTarPath := "/res/bundled/mt5-server.tar" }
      (FileContent.valid { installed := some true, imageLoaded := some true })
      "/ud/podman/bin/podman" =
      ([Item.ev ⟨"complete", "Already installed", 100⟩],
       FileContent.valid { installed := some true, imageLoaded := some true },
       Except.ok true) := by
  refine ⟨rfl, ?_⟩
  exact (install_short_circuits_when_installed
    { platform := .linux, run := fun _ => .error "offline",
      fsExists := fun _ => false, tarExit := 1, localAppData := "", now := "t0" }
    { bundledPath := "/res/bundled", localPodmanPath := "/ud/podman",
      imageTarPath := "/res/bundled/mt5-server.tar" }
    (FileContent.valid { installed := some true, imageLoaded := some true })
    "/ud/podman/bin/podman" rfl).1

/-!
## C4: runtime locator preference order
-/

/-- C4: `checkSystemPodman` adopts exactly the first candidate of its fixed
ordered list whose `--version` command succeeds, and whenever some candidate
succeeds, `setupPodman` switches to that exact path, persists
`{podmanSource: 'system', podmanPath: <path>}`, succeeds, and never attempts
bundle extraction. -/
theorem checkSystemPodman_first_wins (e : Env) (ps : Paths) (f : FileContent)
    (bin p : String) :
    (checkSystemPodman e).2 =
      (podmanCandidates e.platform e.localAppData).find?
        (fun q => exceptOk (e.run (q ++ " --version"))) ∧
    ((checkSystemPodman e).2 = some p →
      exceptOk (e.run (p ++ " --version")) = true ∧
      p ∈ podmanCandidates e.platform e.localAppData ∧
      (setupPodman e ps f bin).val = Except.ok () ∧
      (setupPodman e ps f bin).bin = p ∧
      (∃ w, writesOf (setupPodman e ps f bin).trace = [w] ∧
        w.podmanSource = some "system" ∧ w.podmanPath = some p) ∧
      (setupPodman e ps f bin).trace.all (fun i => !isSpawnTar i) = true) := by
  have hfind : (checkSystemPodman e).2 =
      (podmanCandidates e.platform e.localAppData).find?
        (fun q => exceptOk (e.run (q ++ " --version"))) :=
    checkSystemPodmanGo_find e (podmanCandidates e.platform e.localAppData)
  refine ⟨hfind, fun h => ?_⟩
  have hcmds : ∀ i ∈ (checkSystemPodman e).1, ∃ c n, i = Item.cmd c n :=
    checkSystemPodmanGo_cmds e (podmanCandidates e.platform e.localAppData)
  have hsetup : setupPodman e ps f bin =
      ⟨(checkSystemPodman e).1 ++
        [Item.write (saveState f
          { podmanSource := some "system", podmanPath := some p } e.now).1],
       (saveState f { podmanSource := some "system", podmanPath := some p } e.now).2,
       p, .ok ()⟩ := by
    simp only [setupPodman, h]
  refine ⟨?_, ?_, ?_, ?_, ?_, ?_⟩
  · have := List.find?_some (hfind ▸ h)
    exact this
  · exact List.mem_of_find?_eq_some (hfind ▸ h)
  · rw [hsetup]
  · rw [hsetup]
  · refine ⟨(saveState f
      { podmanSource := some "system", podmanPath := some p } e.now).1, ?_, rfl, rfl⟩
    rw [hsetup]
    show writesOf ((checkSystemPodman e).1 ++ [Item.write _]) = _
    rw [writesOf_append, writesOf_of_cmds hcmds]
    rfl
  · rw [hsetup]
    show ((checkSystemPodman e).1 ++ [Item.write _]).all _ = true
    rw [List.all_append, noSpawnTar_of_cmds hcmds]
    rfl

/-- Environment for the C4 scenario: only the third of the five POSIX
candidates responds to `--version`. -/
def thirdCandidateEnv : Env :=
  { platform := .linux
    run := fun c =>
      if c = "/opt/podman/bin/podman --version" then .ok "podman version 4.9.0"
      else .error "command not found"
    fsExists := fun _ => false
    tarExit := 1
    localAppData := ""
    now := "t0" }

/-- Witness for `checkSystemPodman_first_wins`: with only the third of five
candidates responding, the locator returns exactly that path, `setupPodman`
records source `system` with it, and no bundle extraction happens. -/
theorem checkSystemPodman_first_wins_witness :
    (checkSystemPodman thirdCandidateEnv).2 = some "/opt/podman/bin/podman" ∧
    (setupPodman thirdCandidateEnv
      { bundledPath := "/res/bundled", localPodmanPath := "/ud/podman",
        imageTarPath := "/res/bundled/mt5-server.tar" }
      FileContent.missing "/ud/podman/bin/podman").val = Except.ok () ∧
    (setupPodman thirdCandidateEnv
      { bundledPath := "/res/bundled", localPodmanPath := "/ud/podman",
        imageTarPath := "/res/bundled/mt5-server.tar" }
      FileContent.missing "/ud/podman/bin/podman").bin = "/opt/podman/bin/podman" ∧
    (∃ w, writesOf (setupPodman thirdCandidateEnv
      { bundledPath := "/res/bundled", localPodmanPath := "/ud/podman",
        imageTarPath := "/res/bundled/mt5-server.tar" }
      FileContent.missing "/ud/podman/bin/podman").trace = [w] ∧
      w.podmanSource = some "system" ∧ w.podmanPath = some "/opt/podman/bin/podman") := by
  have hc : (checkSystemPodman thirdCandidateEnv).2 = some "/opt/podman/bin/podman" := by
    decide
  have h := (checkSystemPodman_first_wins thirdCandidateEnv
    { bundledPath := "/res/bundled", localPodmanPath := "/ud/podman",
      imageTarPath := "/res/bundled/mt5-server.tar" }
    FileContent.missing "/ud/podman/bin/podman" "/opt/podman/bin/podman").2 hc
  exact ⟨hc, h.2.2.1, h.2.2.2.1, h.2.2.2.2.1⟩

/-!
## C7: image-load step behaviour
-/

/-- C7: `loadContainerImage` first queries installed images; when the target
reference is already listed it returns at once without invoking the load
command; otherwise a missing bundled tar fails with the "download the full
installer" error (still without invoking the load command); only when the tar
exists is the load command invoked, under the 10-minute timeout. -/
theorem loadContainerImage_spec (e : Env) (ps : Paths) (bin : String) :
    (imageListed e bin = true →
      loadContainerImage e ps bin = ([Item.cmd (imagesCmd bin) 60000], .ok ())) ∧
    (imageListed e bin = false → e.fsExists ps.imageTarPath = false →
      loadContainerImage e ps bin =
        ([Item.cmd (imagesCmd bin) 60000],
         .error "Bundled container image not found. Please download the full installer.")) ∧
    (imageListed e bin = false → e.fsExists ps.imageTarPath = true →
      loadContainerImage e ps bin =
        ([Item.cmd (imagesCmd bin) 60000,
          Item.ev ⟨"image", "Loading container image (this may take a few minutes)...", 60⟩,
          Item.cmd (bin ++ " load -i \"" ++ ps.imageTarPath ++ "\"") 600000],
         (e.run (bin ++ " load -i \"" ++ ps.imageTarPath ++ "\"")).map fun _ => ())) := by
  refine ⟨fun h1 => ?_, fun h1 h2 => ?_, fun h1 h2 => ?_⟩
  · simp [loadContainerImage, h1]
  · simp [loadContainerImage, h1, h2]
  · simp [loadContainerImage, h1, h2]

/-- Witness for `loadContainerImage_spec`, one concrete environment per
branch: the image already listed, the tar missing, and the tar present. -/
theorem loadContainerImage_spec_witness :
    (imageListed
      { platform := .linux, run := fun _ => .ok "localhost/avyaktha-mt5:eightcap-arm64",
        fsExists := fun _ => false, tarExit := 1, localAppData := "", now := "t0" }
      "podman" = true ∧
     loadContainerImage
      { platform := .linux, run := fun _ => .ok "localhost/avyaktha-mt5:eightcap-arm64",
        fsExists := fun _ => false, tarExit := 1, localAppData := "", now := "t0" }
      { bundledPath := "/res/bundled", localPodmanPath := "/ud/podman",
        imageTarPath := "/res/bundled/mt5-server.tar" }
      "podman" = ([Item.cmd (imagesCmd "podman") 60000], .ok ())) ∧
    (imageListed
      { platform := .linux, run := fun _ => .ok "",
        fsExists := fun _ => false, tarExit := 1, localAppData := "", now := "t0" }
      "podman" = false ∧
     loadContainerImage
      { platform := .linux, run := fun _ => .ok "",
        fsExists := fun _ => false, tarExit := 1, localAppData := "", now := "t0" }
      { bundledPath := "/res/bundled", localPodmanPath := "/ud/podman",
        imageTarPath := "/res/bundled/mt5-server.tar" }
      "podman" =
        ([Item.cmd (imagesCmd "podman") 60000],
         .error "Bundled container image not found. Please download the full installer.")) ∧
    (loadContainerImage
      { platform := .linux, run := fun _ => .ok "",
        fsExists := fun _ => true, tarExit := 1, localAppData := "", now := "t0" }
      { bundledPath := "/res/bundled", localPodmanPath := "/ud/podman",
        imageTarPath := "/res/bundled/mt5-server.tar" }
      "podman" =
        ([Item.cmd (imagesCmd "podman") 60000,
          Item.ev ⟨"image", "Loading container image (this may take a few minutes)...", 60⟩,
          Item.cmd ("podman load -i \"/res/bundled/mt5-server.tar\"") 600000],
         .ok ())) := by
  refine ⟨⟨by decide, ?_⟩, ⟨by decide, ?_⟩, ?_⟩
  · exact (loadContainerImage_spec
      { platform := .linux, run := fun _ => .ok "localhost/avyaktha-mt5:eightcap-arm64",
        fsExists := fun _ => false, tarExit := 1, localAppData := "", now := "t0" }
      { bundledPath := "/res/bundled", localPodmanPath := "/ud/podman",
        imageTarPath := "/res/bundled/mt5-server.tar" }
      "podman").1 (by decide)
  · exact (loadContainerImage_spec
      { platform := .linux, run := fun _ => .ok "",
        fsExists := fun _ => false, tarExit := 1, localAppData := "", now := "t0" }
      { bundledPath := "/res/bundled", localPodmanPath := "/ud/podman",
        imageTarPath := "/res/bundled/mt5-server.tar" }
      "podman").2.1 (by decide) rfl
  · have h := (loadContainerImage_spec
      { platform := .linux, run := fun _ => .ok "",
        fsExists := fun _ => true, tarExit := 1, localAppData := "", now := "t0" }
      { bundledPath := "/res/bundled", localPodmanPath := "/ud/podman",
        imageTarPath := "/res/bundled/mt5-server.tar" }
      "podman").2.2 (by decide) rfl
    rw [h]
    rfl


/-!
## Step-level trace lemmas for the orchestrator
-/

theorem eventsOf_cons_ev (x : ProgressEvent) (t : List Item) :
    eventsOf (Item.ev x :: t) = x :: eventsOf t := by
  simp [eventsOf]

theorem writesOf_cons_ev (x : ProgressEvent) (t : List Item) :
    writesOf (Item.ev x :: t) = writesOf t := by
  simp [writesOf]

theorem extract_events (e : Env) (ps : Paths) :
    eventsOf (extractBundledPodman e ps).1 = [] := by
  simp only [extractBundledPodman]
  split
  · rfl
  · split <;> rfl

theorem extract_writes (e : Env) (ps : Paths) :
    writesOf (extractBundledPodman e ps).1 = [] := by
  simp only [extractBundledPodman]
  split
  · rfl
  · split <;> rfl

theorem setup_events (e : Env) (ps : Paths) (f : FileContent) (bin : String) :
    eventsOf (setupPodman e ps f bin).trace = [] := by
  have hc : ∀ i ∈ (checkSystemPodman e).1, ∃ c n, i = Item.cmd c n :=
    checkSystemPodmanGo_cmds e (podmanCandidates e.platform e.localAppData)
  rcases h2 : (checkSystemPodman e).2 with _ | p
  · cases hfe : e.fsExists bin with
    | true =>
      simp only [setupPodman, h2, hfe, if_true]
      rw [eventsOf_append, eventsOf_of_cmds hc]
      rfl
    | false =>
      rcases hx : (extractBundledPodman e ps).2 with m | u
      · simp only [setupPodman, h2, hfe, Bool.false_eq_true, if_false, hx]
        rw [eventsOf_append, eventsOf_of_cmds hc, extract_events]
        rfl
      · simp only [setupPodman, h2, hfe, Bool.false_eq_true, if_false, hx]
        rw [eventsOf_append, eventsOf_append, eventsOf_of_cmds hc, extract_events]
        rfl
  · simp only [setupPodman, h2]
    rw [eventsOf_append, eventsOf_of_cmds hc]
    rfl

theorem setup_writes (e : Env) (ps : Paths) (f : FileContent) (bin : String) :
    ((setupPodman e ps f bin).val = Except.ok () →
      ∃ w, writesOf (setupPodman e ps f bin).trace = [w] ∧
        w.podmanSource.isSome = true) ∧
    (∀ m, (setupPodman e ps f bin).val = Except.error m →
      writesOf (setupPodman e ps f bin).trace = []) := by
  have hc : ∀ i ∈ (checkSystemPodman e).1, ∃ c n, i = Item.cmd c n :=
    checkSystemPodmanGo_cmds e (podmanCandidates e.platform e.localAppData)
  rcases h2 : (checkSystemPodman e).2 with _ | p
  · cases hfe : e.fsExists bin with
    | true =>
      simp only [setupPodman, h2, hfe, if_true]
      refine ⟨fun _ => ⟨(saveState f { podmanSource := some "bundled" } e.now).1,
        ?_, rfl⟩, fun m hm => by simp at hm⟩
      rw [writesOf_append, writesOf_of_cmds hc]
      rfl
    | false =>
      rcases hx : (extractBundledPodman e ps).2 with m | u
      · simp only [setupPodman, h2, hfe, Bool.false_eq_true, if_false, hx]
        refine ⟨fun hok => by simp at hok, fun m' hm' => ?_⟩
        rw [writesOf_append, writesOf_of_cmds hc, extract_writes]
        rfl
      · simp only [setupPodman, h2, hfe, Bool.false_eq_true, if_false, hx]
        refine ⟨fun _ => ⟨(saveState f { podmanSource := some "bundled" } e.now).1,
          ?_, rfl⟩, fun m hm => by simp at hm⟩
        rw [writesOf_append, writesOf_append, writesOf_of_cmds hc, extract_writes]
        rfl
  · simp only [setupPodman, h2]
    refine ⟨fun _ => ⟨(saveState f
      { podmanSource := some "system", podmanPath := some p } e.now).1,
      ?_, rfl⟩, fun m hm => by simp at hm⟩
    rw [writesOf_append, writesOf_of_cmds hc]
    rfl

theorem machine_events (e : Env) (bin : String) :
    eventsOf (initPodmanMachine e bin).1 = [] := by
  simp only [initPodmanMachine]
  repeat' split
  all_goals rfl

theorem machine_writes (e : Env) (bin : String) :
    writesOf (initPodmanMachine e bin).1 = [] := by
  simp only [initPodmanMachine]
  repeat' split
  all_goals rfl

theorem load_events (e : Env) (ps : Paths) (bin : String) :
    eventsOf (loadContainerImage e ps bin).1 = [] ∨
    eventsOf (loadContainerImage e ps bin).1 =
      [⟨"image", "Loading container image (this may take a few minutes)...", 60⟩] := by
  simp only [loadContainerImage]
  split
  · left; rfl
  · split
    · left; rfl
    · right; rfl

theorem load_writes (e : Env) (ps : Paths) (bin : String) :
    writesOf (loadContainerImage e ps bin).1 = [] := by
  simp only [loadContainerImage]
  split
  · rfl
  · split <;> rfl

theorem verify_events (e : Env) (bin : String) :
    eventsOf (verifyInstallation e bin).1 = [] := by
  simp only [verifyInstallation]
  repeat' split
  all_goals rfl

theorem verify_writes (e : Env) (bin : String) :
    writesOf (verifyInstallation e bin).1 = [] := by
  simp only [verifyInstallation]
  repeat' split
  all_goals rfl

theorem eventsOf_nil : eventsOf [] = [] := rfl

theorem writesOf_nil : writesOf [] = [] := rfl

theorem eventsOf_cons_write (r : StateRecord) (t : List Item) :
    eventsOf (Item.write r :: t) = eventsOf t := by
  simp [eventsOf]

theorem writesOf_cons_write (r : StateRecord) (t : List Item) :
    writesOf (Item.write r :: t) = r :: writesOf t := by
  simp [writesOf]

/-- The progress events of a successful `install()` run: the machine event
appears exactly on platforms that need a podman machine (`hm`), and the 60%
event exactly when the image actually had to be loaded (`hl`). -/
def installEvents (hm hl : Bool) : List ProgressEvent :=
  [⟨"podman", "Setting up container runtime...", 10⟩] ++
  (if hm then [⟨"machine", "Initializing Podman machine...", 30⟩] else []) ++
  [⟨"image", "Loading MT5 container image...", 50⟩] ++
  (if hl then [⟨"image", "Loading container image (this may take a few minutes)...", 60⟩]
   else []) ++
  [⟨"verify", "Verifying installation...", 90⟩,
   ⟨"complete", "Installation complete!", 100⟩]

/-- Decomposition of a non-short-circuited `install()` run: a successful run
emits exactly the canonical event sequence and exactly two state-file writes
(the `setupPodman` write, whose record carries a `podmanSource`, and the final
completion write carrying `installed`/`imageLoaded`/`installedAt`); a failing
run performs either no write at all or only the `setupPodman` write. -/
theorem install_decomp (e : Env) (ps : Paths) (f : FileContent) (bin : String)
    (h : isInstalled f = false) :
    ((install e ps f bin).2.2 = Except.ok true →
      (∃ hm hl, eventsOf (install e ps f bin).1 = installEvents hm hl) ∧
      (∃ w1 w2, writesOf (install e ps f bin).1 = [w1, w2] ∧
        w1.podmanSource.isSome = true ∧ w2.installed = some true ∧
        w2.imageLoaded = some true ∧ w2.installedAt = some e.now)) ∧
    (∀ m, (install e ps f bin).2.2 = Except.error m →
      writesOf (install e ps f bin).1 = [] ∨
      ∃ w1, writesOf (install e ps f bin).1 = [w1] ∧
        w1.podmanSource.isSome = true) := by
  have hsw := setup_writes e ps f bin
  have hse := setup_events e ps f bin
  simp only [install, h, Bool.false_eq_true, if_false]
  rcases hs : (setupPodman e ps f bin).val with m | ⟨⟩
  · simp only [hs]
    refine ⟨fun hok => by simp at hok, fun m' hm' => ?_⟩
    left
    simp [writesOf_append, writesOf_cons_ev, writesOf_nil, errorEvent, hsw.2 m hs]
  · simp only [hs]
    cases hp : (e.platform == Platform.darwin || e.platform == Platform.win32) with
    | false =>
      simp only [hp, Bool.false_eq_true, if_false]
      rcases hl' : (loadContainerImage e ps (setupPodman e ps f bin).bin).2 with m | ⟨⟩
      · simp only [hl']
        refine ⟨fun hok => by simp at hok, fun m' hm' => ?_⟩
        right
        obtain ⟨w1, hw1, hw1s⟩ := hsw.1 hs
        refine ⟨w1, ?_, hw1s⟩
        simp [writesOf_append, writesOf_cons_ev, writesOf_nil, errorEvent,
          hw1, load_writes]
      · simp only [hl']
        rcases hv : (verifyInstallation e (setupPodman e ps f bin).bin).2 with m | ⟨⟩
        · simp only [hv]
          refine ⟨fun hok => by simp at hok, fun m' hm' => ?_⟩
          right
          obtain ⟨w1, hw1, hw1s⟩ := hsw.1 hs
          refine ⟨w1, ?_, hw1s⟩
          simp [writesOf_append, writesOf_cons_ev, writesOf_nil, errorEvent,
            hw1, load_writes, verify_writes]
        · simp only [hv]
          refine ⟨fun _ => ⟨?_, ?_⟩, fun m' hm' => by simp at hm'⟩
          · rcases load_events e ps (setupPodman e ps f bin).bin with hL | hL
            · refine ⟨false, false, ?_⟩
              simp [eventsOf_append, eventsOf_cons_ev, eventsOf_cons_write,
                eventsOf_nil, hse, hL, verify_events, installEvents]
            · refine ⟨false, true, ?_⟩
              simp [eventsOf_append, eventsOf_cons_ev, eventsOf_cons_write,
                eventsOf_nil, hse, hL, verify_events, installEvents]
          · obtain ⟨w1, hw1, hw1s⟩ := hsw.1 hs
            refine ⟨w1, (saveState (setupPodman e ps f bin).file
              { installed := some true, imageLoaded := some true,
                installedAt := some e.now } e.now).1, ?_, hw1s, rfl, rfl, rfl⟩
            simp [writesOf_append, writesOf_cons_ev, writesOf_cons_write,
              writesOf_nil, hw1, load_writes, verify_writes]
    | true =>
      simp only [hp, if_true]
      rcases hm2 : (initPodmanMachine e (setupPodman e ps f bin).bin).2 with m | ⟨⟩
      · simp only [hm2]
        refine ⟨fun hok => by simp at hok, fun m' hm' => ?_⟩
        right
        obtain ⟨w1, hw1, hw1s⟩ := hsw.1 hs
        refine ⟨w1, ?_, hw1s⟩
        simp [writesOf_append, writesOf_cons_ev, writesOf_nil, errorEvent,
          hw1, machine_writes]
      · simp only [hm2]
        rcases hl' : (loadContainerImage e ps (setupPodman e ps f bin).bin).2 with m | ⟨⟩
        · simp only [hl']
          refine ⟨fun hok => by simp at hok, fun m' hm' => ?_⟩
          right
          obtain ⟨w1, hw1, hw1s⟩ := hsw.1 hs
          refine ⟨w1, ?_, hw1s⟩
          simp [writesOf_append, writesOf_cons_ev, writesOf_nil, errorEvent,
            hw1, machine_writes, load_writes]
        · simp only [hl']
          rcases hv : (verifyInstallation e (setupPodman e ps f bin).bin).2 with m | ⟨⟩
          · simp only [hv]
            refine ⟨fun hok => by simp at hok, fun m' hm' => ?_⟩
            right
            obtain ⟨w1, hw1, hw1s⟩ := hsw.1 hs
            refine ⟨w1, ?_, hw1s⟩
            simp [writesOf_append, writesOf_cons_ev, writesOf_nil, errorEvent,
              hw1, machine_writes, load_writes, verify_writes]
          · simp only [hv]
            refine ⟨fun _ => ⟨?_, ?_⟩, fun m' hm' => by simp at hm'⟩
            · rcases load_events e ps (setupPodman e ps f bin).bin with hL | hL
              · refine ⟨true, false, ?_⟩
                simp [eventsOf_append, eventsOf_cons_ev, eventsOf_cons_write,
                  eventsOf_nil, hse, machine_events, hL, verify_events, installEvents]
              · refine ⟨true, true, ?_⟩
                simp [eventsOf_append, eventsOf_cons_ev, eventsOf_cons_write,
                  eventsOf_nil, hse, machine_events, hL, verify_events, installEvents]
            · obtain ⟨w1, hw1, hw1s⟩ := hsw.1 hs
              refine ⟨w1, (saveState (setupPodman e ps f bin).file
                { installed := some true, imageLoaded := some true,
                  installedAt := some e.now } e.now).1, ?_, hw1s, rfl, rfl, rfl⟩
              simp [writesOf_append, writesOf_cons_ev, writesOf_cons_write,
                writesOf_nil, hw1, machine_writes, load_writes, verify_writes]

/-!
## C5 and C6: persistence and progress behaviour of full install() runs
-/

/-- Environment in which every external interaction fails: all commands error,
no file exists, `tar` exits nonzero. -/
def failEnv : Env :=
  { platform := .linux
    run := fun _ => .error "fail"
    fsExists := fun _ => false
    tarExit := 1
    localAppData := ""
    now := "t0" }

/-- Environment in which every command succeeds and reports the target image
as present. -/
def okEnv : Env :=
  { platform := .linux
    run := fun _ => .ok "localhost/avyaktha-mt5:eightcap-arm64"
    fsExists := fun _ => true
    tarExit := 0
    localAppData := ""
    now := "t0" }

/-- Concrete paths used by the concrete runs. -/
def stdPaths : Paths :=
  { bundledPath := "/res/bundled"
    localPodmanPath := "/ud/podman"
    imageTarPath := "/res/bundled/mt5-server.tar" }

/-- C5 counterexample: a fresh run in which runtime setup fails (no system
podman, no extracted podman, no bundled archive) ends in an error that reaches
the caller, yet performs no state-file write at all — refuting the claim that
a run ending in failure writes state before the error reaches the caller (and
with it the claim that every successful step is followed by a write, since no
write ever happens between steps other than setupPodman's). -/
theorem install_failure_writes_nothing_ce :
    (install failEnv stdPaths FileContent.missing "/ud/podman/bin/podman").2.2 =
      Except.error (missingPodmanMsg Platform.linux) ∧
    writesOf (install failEnv stdPaths FileContent.missing "/ud/podman/bin/podman").1 =
      [] := by
  exact ⟨rfl, rfl⟩

/-- C5 as amended: for every non-short-circuited run of `install()`, state is
persisted exactly twice on success — once by `setupPodman` (recording the
podman source) and once at completion (recording
`installed`/`imageLoaded`/`installedAt`) — while a failing run performs either
only the `setupPodman` write or no write at all; no other step is followed by
a write, and terminal failure adds none. -/
theorem install_state_writes (e : Env) (ps : Paths) (f : FileContent)
    (bin : String) (h : isInstalled f = false) :
    ((install e ps f bin).2.2 = Except.ok true →
      ∃ w1 w2, writesOf (install e ps f bin).1 = [w1, w2] ∧
        w1.podmanSource.isSome = true ∧ w2.installed = some true ∧
        w2.imageLoaded = some true ∧ w2.installedAt = some e.now) ∧
    (∀ m, (install e ps f bin).2.2 = Except.error m →
      writesOf (install e ps f bin).1 = [] ∨
      ∃ w1, writesOf (install e ps f bin).1 = [w1] ∧
        w1.podmanSource.isSome = true) :=
  ⟨fun hok => ((install_decomp e ps f bin h).1 hok).2, (install_decomp e ps f bin h).2⟩

/-- Witness for `install_state_writes`: a concrete fresh successful run with
its two writes. -/
theorem install_state_writes_witness :
    isInstalled FileContent.missing = false ∧
    (install okEnv stdPaths FileContent.missing "/b").2.2 = Except.ok true ∧
    ∃ w1 w2, writesOf (install okEnv stdPaths FileContent.missing "/b").1 = [w1, w2] ∧
      w1.podmanSource.isSome = true ∧ w2.installed = some true ∧
      w2.imageLoaded = some true ∧ w2.installedAt = some okEnv.now := by
  refine ⟨rfl, rfl, ?_⟩
  exact (install_state_writes okEnv stdPaths FileContent.missing "/b" rfl).1 rfl

/-- C6 counterexample: a fresh run whose runtime setup fails emits the 10%
podman event followed by the terminal error event at progress 0 — so the
progress percentages `[10, 0]` across the events of this fresh run are not
monotonically non-decreasing, and the full step sequence does not execute. -/
theorem install_fresh_failure_not_monotone_ce :
    (eventsOf (install failEnv stdPaths FileContent.missing
      "/ud/podman/bin/podman").1).map (fun v => v.progress) = [10, 0] ∧
    ¬ List.Chain' (· ≤ ·)
      ((eventsOf (install failEnv stdPaths FileContent.missing
        "/ud/podman/bin/podman").1).map fun v => v.progress) := by
  have h1 : (eventsOf (install failEnv stdPaths FileContent.missing
      "/ud/podman/bin/podman").1).map (fun v => v.progress) = [10, 0] := rfl
  refine ⟨h1, ?_⟩
  rw [h1]
  simp [List.chain'_cons]

/-- C6 as amended: on a fresh invocation (no state file), `isInstalled()`
returns false, and whenever the run succeeds, `install()` emits exactly the
canonical ordered event sequence (podman, optional machine, image, optional
60% load, verify, complete) whose progress percentages are monotonically
non-decreasing.  (A failing fresh run instead ends with an error event at
progress 0, breaking monotonicity — see the counterexample.) -/
theorem install_fresh_events (e : Env) (ps : Paths) (bin : String) :
    isInstalled FileContent.missing = false ∧
    ((install e ps FileContent.missing bin).2.2 = Except.ok true →
      ∃ hm hl,
        eventsOf (install e ps FileContent.missing bin).1 = installEvents hm hl ∧
        List.Chain' (· ≤ ·) ((installEvents hm hl).map fun v => v.progress)) := by
  refine ⟨rfl, fun hok => ?_⟩
  obtain ⟨⟨hm, hl, hev⟩, _⟩ := (install_decomp e ps FileContent.missing bin rfl).1 hok
  refine ⟨hm, hl, hev, ?_⟩
  cases hm <;> cases hl <;> simp [installEvents, List.chain'_cons]

/-- Witness for `install_fresh_events`: a concrete fresh successful run with
its monotone event sequence. -/
theorem install_fresh_events_witness :
    (install okEnv stdPaths FileContent.missing "/b").2.2 = Except.ok true ∧
    ∃ hm hl,
      eventsOf (install okEnv stdPaths FileContent.missing "/b").1 =
        installEvents hm hl ∧
      List.Chain' (· ≤ ·) ((installEvents hm hl).map fun v => v.progress) := by
  refine ⟨rfl, ?_⟩
  exact (install_fresh_events okEnv stdPaths "/b").2 rfl

/-!
## Container Lifecycle Manager (src/electron/src/main.js)
-/

/-- JavaScript whitespace test for the characters our commands can produce. -/
def isWsChar (c : Char) : Bool :=
  c == ' ' || c == '\n' || c == '\t' || c == '\r'

/-- JavaScript `String.prototype.trim`: strip whitespace from both ends. -/
def jsTrim (s : String) : String :=
  String.mk (((s.data.dropWhile isWsChar).reverse.dropWhile isWsChar).reverse)

/-- JavaScript `s.slice(-n)`: the last `n` characters of `s` (all of `s` when
it is shorter). -/
def jsSliceLast (n : Nat) (s : String) : String :=
  String.mk (s.data.drop (s.data.length - n))

/-- One observable side effect of the lifecycle manager: an `exec`-ed runtime
command, the detached `spawn(runtime, args)` that launches the container, or a
dialog shown to the user (recorded as title and detail text). -/
inductive MItem where
  | exec (command : String)
  | spawnRun (runtime : String) (args : List String)
  | dialog (title : String) (detail : String)
deriving Repr, DecidableEq

/-- Environment for the lifecycle manager: the module-global `podmanBin`
(the resolved container runtime; the empty string models a falsy value), the
stdout each `exec` callback receives (empty when the command failed), a second
stdout oracle for the re-check `startContainer` performs after spawning, the
error flag of each `exec`, and its stderr. -/
structure MEnv where
  podmanBin : String
  execOut : String → String
  execOutAfter : String → String
  execErr : String → Bool
  execStdErr : String → String

/-- The `ps` command of `checkContainerStatus` (main.js line 38). -/
def psCmd (rt : String) : String :=
  rt ++ " ps --filter name=mt5-server --format \"\x7b\x7b.Names\x7d\x7d\""

/-- Model of `checkContainerStatus` (main.js lines 33-43): a falsy runtime yields false
without running anything; otherwise list containers filtered by the fixed name
and compare the trimmed stdout against it (the callback ignores the error
argument, so a failed command simply yields empty stdout and false). -/
def checkContainerStatus (rt : String) (out : String → String) :
    List MItem × Bool :=
  if rt = "" then ([], false)
  else ([MItem.exec (psCmd rt)], jsTrim (out (psCmd rt)) == "mt5-server")

/-- The install-instructions text of the error dialog in `startContainer`
(main.js lines 49-52). -/
def runtimeMissingMsg : String :=
  "Please install Podman or Docker to run MT5 Server.\n\n" ++
  "macOS: brew install podman\nLinux: sudo apt install podman"

/-- The argument vector of the detached container launch (main.js lines
65-74), with `CONFIG.ports = {vnc: 5901, novnc: 6081, rpyc: 8001}`. -/
def startArgs : List String :=
  ["run", "-d", "--name", "mt5-server",
   "-e", "VNC_PWD=mt5vnc",
   "-e", "MT5_HOST=0.0.0.0",
   "-p", "5901:5901",
   "-p", "6081:6081",
   "-p", "8001:8001",
   "localhost/avyaktha-mt5:eightcap-arm64"]

/-- Model of `startContainer` (main.js lines 46-97): a falsy runtime shows the
install-instructions dialog and returns false; if the status check already
reports the container running, return true at once (no removal, no spawn);
otherwise remove any same-named container ignoring errors, spawn the detached
`run`, wait three seconds, re-check the status and return its result. -/
def startContainer (e : MEnv) : List MItem × Bool :=
  let rt := e.podmanBin
  if rt = "" then
    ([MItem.dialog "Container Runtime Not Found" runtimeMissingMsg], false)
  else
    let s1 := checkContainerStatus rt e.execOut
    if s1.2 then (s1.1, true)
    else
      let s2 := checkContainerStatus rt e.execOutAfter
      (s1.1 ++ [MItem.exec (rt ++ " rm -f mt5-server"), MItem.spawnRun rt startArgs]
        ++ s2.1, s2.2)

/-- Model of `stopContainer` (main.js lines 100-111): a falsy runtime returns undefined
(modelled `none`) without running anything; otherwise issue the stop command
and resolve `!error`. -/
def stopContainer (e : MEnv) : List MItem × Option Bool :=
  let rt := e.podmanBin
  if rt = "" then ([], none)
  else ([MItem.exec (rt ++ " stop mt5-server")],
    some (!(e.execErr (rt ++ " stop mt5-server"))))

/-- The View Logs handler (main.js lines 172-187): with a truthy runtime, run
the logs command and show a dialog whose detail is
`(stdout || stderr || 'No logs available').slice(-2000)`; with a falsy runtime
do nothing at all. -/
def viewLogs (e : MEnv) : List MItem :=
  let rt := e.podmanBin
  if rt = "" then []
  else
    let c := rt ++ " logs --tail 100 mt5-server"
    let so := e.execOut c
    let se := e.execStdErr c
    let logs := if so != "" then so else if se != "" then se else "No logs available"
    [MItem.exec c, MItem.dialog "Container Logs" (jsSliceLast 2000 logs)]

/-- C8: when the status check reports the fixed container name as running,
`startContainer()` performs no removal command and no spawn — its only side
effect is the single `ps` status query — and it returns true. -/
theorem startContainer_noop_when_running (e : MEnv)
    (h1 : ¬ e.podmanBin = "")
    (h2 : jsTrim (e.execOut (psCmd e.podmanBin)) = "mt5-server") :
    startContainer e = ([MItem.exec (psCmd e.podmanBin)], true) := by
  simp [startContainer, checkContainerStatus, h1, h2]

/-- Environment in which the `ps` status query reports the container as
already running. -/
def runningEnv : MEnv :=
  { podmanBin := "podman"
    execOut := fun c => if c = psCmd "podman" then "mt5-server\n" else ""
    execOutAfter := fun _ => ""
    execErr := fun _ => false
    execStdErr := fun _ => "" }

/-- Witness for `startContainer_noop_when_running` at a concrete environment
whose `ps` output is `"mt5-server\n"`. -/
theorem startContainer_noop_when_running_witness :
    jsTrim (runningEnv.execOut (psCmd runningEnv.podmanBin)) = "mt5-server" ∧
    startContainer runningEnv = ([MItem.exec (psCmd "podman")], true) := by
  refine ⟨by decide, ?_⟩
  exact startContainer_noop_when_running runningEnv (by decide) (by decide)

/-!
## C9: behaviour when the runtime binary is not found
-/

/-- Environment whose resolved runtime is falsy (empty string). -/
def noRuntimeEnv : MEnv :=
  { podmanBin := ""
    execOut := fun _ => ""
    execOutAfter := fun _ => ""
    execErr := fun _ => true
    execStdErr := fun _ => "" }

/-- C9 counterexample: with a falsy runtime, `checkContainerStatus`,
`stopContainer` and the View Logs handler return immediately with an empty
trace — in particular no dialog at all, so none of them "shows install
instructions" as the claim asserts for every operation; only
`startContainer` does. -/
theorem status_stop_logs_show_no_instructions_ce :
    checkContainerStatus noRuntimeEnv.podmanBin noRuntimeEnv.execOut = ([], false) ∧
    stopContainer noRuntimeEnv = ([], none) ∧
    viewLogs noRuntimeEnv = [] := by
  exact ⟨rfl, rfl, rfl⟩

/-- C9 as amended: with a falsy runtime, `startContainer` alone shows the
install-instructions dialog (and returns false, invoking no runtime command),
while `checkContainerStatus` returns false, `stopContainer` returns undefined
and the View Logs handler does nothing — each silently, with no command and no
dialog; and with a truthy runtime, command failures still surface as return
values rather than exceptions: `stopContainer` resolves the boolean `!error`,
and a logs command with empty stdout and stderr still shows the
`'No logs available'` placeholder dialog. -/
theorem runtime_not_found_amended (e : MEnv) (h : e.podmanBin = "") :
    startContainer e =
      ([MItem.dialog "Container Runtime Not Found" runtimeMissingMsg], false) ∧
    checkContainerStatus e.podmanBin e.execOut = ([], false) ∧
    stopContainer e = ([], none) ∧
    viewLogs e = [] ∧
    (∀ e2 : MEnv, ¬ e2.podmanBin = "" →
      (stopContainer e2).2 =
        some (!(e2.execErr (e2.podmanBin ++ " stop mt5-server")))) ∧
    (∀ e2 : MEnv, ¬ e2.podmanBin = "" →
      e2.execOut (e2.podmanBin ++ " logs --tail 100 mt5-server") = "" →
      e2.execStdErr (e2.podmanBin ++ " logs --tail 100 mt5-server") = "" →
      viewLogs e2 =
        [MItem.exec (e2.podmanBin ++ " logs --tail 100 mt5-server"),
         MItem.dialog "Container Logs" "No logs available"]) := by
  refine ⟨?_, ?_, ?_, ?_, fun e2 h2 => ?_, fun e2 h2 ho hs => ?_⟩
  · simp [startContainer, h]
  · simp [checkContainerStatus, h]
  · simp [stopContainer, h]
  · simp [viewLogs, h]
  · simp [stopContainer, h2]
  · simp [viewLogs, h2, ho, hs]
    rfl

/-- Witness for `runtime_not_found_amended` at the falsy-runtime environment
and a truthy-runtime environment whose logs command produces no output. -/
theorem runtime_not_found_amended_witness :
    noRuntimeEnv.podmanBin = "" ∧
    startContainer noRuntimeEnv =
      ([MItem.dialog "Container Runtime Not Found" runtimeMissingMsg], false) ∧
    viewLogs noRuntimeEnv = [] ∧
    viewLogs
      { podmanBin := "podman", execOut := fun _ => "", execOutAfter := fun _ => "",
        execErr := fun _ => true, execStdErr := fun _ => "" } =
      [MItem.exec "podman logs --tail 100 mt5-server",
       MItem.dialog "Container Logs" "No logs available"] := by
  have h := runtime_not_found_amended noRuntimeEnv rfl
  refine ⟨rfl, h.1, h.2.2.2.1, ?_⟩
  exact h.2.2.2.2.2
    { podmanBin := "podman", execOut := fun _ => "", execOutAfter := fun _ => "",
      execErr := fun _ => true, execStdErr := fun _ => "" }
    (by decide) rfl rfl
